import Mathlib

/-
Verification development for the SkedAI scheduling assistant
(backend/app/booking_agent.py and backend/app/calendar_service.py).

Modelling conventions:
* A timezone-aware `datetime` in the user's timezone is modelled as an
  absolute number of seconds (a natural number).  Day 0 of the epoch is
  chosen to be a Monday, so `weekday` is `(t / 86400) % 7` with Monday = 0,
  matching Python's `datetime.weekday()`.  The configured timezone
  (Asia/Kolkata) has a fixed UTC offset and no daylight-saving
  transitions, so wall-clock arithmetic and instant arithmetic agree and
  `t % 86400` is the wall-clock seconds-of-day.  Sub-second precision
  (microseconds) is not modelled.
* Python regular-expression searches (`re.search`) are modelled by scanner
  functions over `List Char` that try every start position from the left,
  mirroring the leftmost-match rule; greedy repetition and the places
  where backtracking is observable are reproduced pattern by pattern.
* A resolver that raises (for example `datetime.replace` with an
  out-of-range hour, a `ValueError`) is modelled with `Except Unit`;
  the pattern loop of `_parse_time_advanced` catches such errors and
  moves to the next pattern, while a resolver that *returns* `None`
  (no exception) ends the loop with result `None`.
-/

namespace SkedAI

/-! ## Time model -/

/-- Calendar day index of an absolute time (`datetime.date`, essentially). -/
def dayOf (t : ℕ) : ℕ := t / 86400

/-- Wall-clock seconds-of-day of an absolute time (`datetime.time`). -/
def sodOf (t : ℕ) : ℕ := t % 86400

/-- `datetime.weekday()`: Monday = 0 ... Sunday = 6 (day 0 is a Monday). -/
def weekdayOf (t : ℕ) : ℕ := dayOf t % 7

/-- `dt.replace(hour=h, minute=m, second=0, microsecond=0)`.  Python's
`replace` raises `ValueError` when the hour or minute is out of range;
that exception is modelled by `Except.error`. -/
def replaceHM (t h m : ℕ) : Except Unit ℕ :=
  if h < 24 ∧ m < 60 then .ok (dayOf t * 86400 + h * 3600 + m * 60) else .error ()

/-! ## Character and scanning toolkit (model of the `re` usage) -/

/-- ASCII `str.lower` on one character (the inputs of interest are ASCII). -/
def lowerC (c : Char) : Char :=
  if 65 ≤ c.toNat ∧ c.toNat ≤ 90 then Char.ofNat (c.toNat + 32) else c

/-- Regex `\d`. -/
def isDigitC (c : Char) : Bool := decide (48 ≤ c.toNat) && decide (c.toNat ≤ 57)

/-- Regex `\w` (ASCII range: letters, digits, underscore). -/
def isWordC (c : Char) : Bool :=
  isDigitC c || (decide (97 ≤ c.toNat) && decide (c.toNat ≤ 122)) ||
    (decide (65 ≤ c.toNat) && decide (c.toNat ≤ 90)) || decide (c.toNat = 95)

/-- Regex `\s` (ASCII whitespace). -/
def isSpaceC (c : Char) : Bool :=
  decide (c.toNat = 32) || decide (c.toNat = 9) || decide (c.toNat = 10) ||
    decide (c.toNat = 13) || decide (c.toNat = 12) || decide (c.toNat = 11)

/-- `int()` on a run of decimal digits. -/
def digitsVal (ds : List Char) : ℕ := ds.foldl (fun a c => a * 10 + (c.toNat - 48)) 0

/-- Consume a literal; return the rest of the input on success. -/
def eatLit : List Char → List Char → Option (List Char)
  | [], l => some l
  | _ :: _, [] => none
  | c :: cs, x :: xs => if c = x then eatLit cs xs else none

/-- `re.search` position loop: try the pattern at every start position,
left to right; the first position where it matches wins. -/
def scanAll {α : Type} (f : List Char → Option α) : List Char → Option α
  | [] => f []
  | c :: rest =>
    match f (c :: rest) with
    | some r => some r
    | none => scanAll f rest

/-- Substring containment, Python's `needle in haystack`. -/
def containsSub (needle l : List Char) : Bool :=
  (scanAll (fun s => (eatLit needle s).map (fun _ => ())) l).isSome

def dropSpaces (l : List Char) : List Char := l.dropWhile isSpaceC

/-- Exactly two decimal digits (regex `(\d{2})`). -/
def take2Digits (l : List Char) : Option (ℕ × List Char) :=
  match l with
  | a :: b :: rest => if isDigitC a && isDigitC b then some (digitsVal [a, b], rest) else none
  | _ => none

/-- Optional trailing `(am|pm)?` group; `true` means `pm`. -/
def ampmOpt (l : List Char) : Option Bool :=
  match eatLit ("am".data) l with
  | some _ => some false
  | none =>
    match eatLit ("pm".data) l with
    | some _ => some true
    | none => none

/-- Tail `(\d{1,2}):?(\d{2})?\s*(am|pm)?` with every part after the hour
optional.  `(\d{1,2})` greedily takes at most two characters of the digit
run; since the rest of the tail cannot fail, no backtracking is
observable and the scan is deterministic. -/
def hmTailOpt (l : List Char) : Option (ℕ × Option ℕ × Option Bool) :=
  match l.span isDigitC with
  | (ds, rest) =>
    if ds.isEmpty then none
    else
      let hour := digitsVal (ds.take 2)
      let after := ds.drop 2 ++ rest
      let after1 :=
        match after with
        | ':' :: r => r
        | _ => after
      let step2 :=
        match take2Digits after1 with
        | some (m, r) => (some m, r)
        | none => ((none : Option ℕ), after1)
      some (hour, step2.1, ampmOpt (dropSpaces step2.2))

/-- Tail `:?(\d{2})?\s*(am|pm)` with the meridiem required (pattern
`(\d{1,2}):?(\d{2})?\s*(am|pm)`), starting just after the hour digits. -/
def reqTail (l : List Char) : Option (Option ℕ × Bool) :=
  let after1 :=
    match l with
    | ':' :: r => r
    | _ => l
  let step2 :=
    match take2Digits after1 with
    | some (m, r) => (some m, r)
    | none => ((none : Option ℕ), after1)
  match ampmOpt (dropSpaces step2.2) with
  | some pm => some (step2.1, pm)
  | none => none

/-- Pattern `(\d{1,2}):?(\d{2})?\s*(am|pm)`: here the required `(am|pm)`
can make the greedy two-digit hour fail, so the regex engine backtracks
to a one-digit hour (for example on `123pm`, giving hour 1, minutes 23). -/
def hmTailReq (l : List Char) : Option (ℕ × Option ℕ × Bool) :=
  match l.span isDigitC with
  | (ds, rest) =>
    if ds.isEmpty then none
    else if 2 ≤ ds.length then
      match reqTail (ds.drop 2 ++ rest) with
      | some (m, pm) => some (digitsVal (ds.take 2), m, pm)
      | none =>
        match reqTail (ds.drop 1 ++ rest) with
        | some (m, pm) => some (digitsVal (ds.take 1), m, pm)
        | none => none
    else
      match reqTail (ds.drop 1 ++ rest) with
      | some (m, pm) => some (digitsVal (ds.take 1), m, pm)
      | none => none

/-! ## Pattern matchers, one per entry of `relative_patterns` -/

/-- `in (\d+) (?:hour|hr)s?` at one position. -/
def mInHours (l : List Char) : Option ℕ :=
  match eatLit ("in ".data) l with
  | none => none
  | some r =>
    match r.span isDigitC with
    | (ds, rest) =>
      if ds.isEmpty then none
      else
        match rest with
        | ' ' :: r2 =>
          match eatLit ("hour".data) r2 with
          | some _ => some (digitsVal ds)
          | none =>
            match eatLit ("hr".data) r2 with
            | some _ => some (digitsVal ds)
            | none => none
        | _ => none

/-- `in (\d+) (?:minute|min)s?` at one position. -/
def mInMinutes (l : List Char) : Option ℕ :=
  match eatLit ("in ".data) l with
  | none => none
  | some r =>
    match r.span isDigitC with
    | (ds, rest) =>
      if ds.isEmpty then none
      else
        match rest with
        | ' ' :: r2 =>
          match eatLit ("minute".data) r2 with
          | some _ => some (digitsVal ds)
          | none =>
            match eatLit ("min".data) r2 with
            | some _ => some (digitsVal ds)
            | none => none
        | _ => none

/-- `tomorrow at (\d{1,2}):?(\d{2})?\s*(am|pm)?` at one position. -/
def mTomorrowAt (l : List Char) : Option (ℕ × Option ℕ × Option Bool) :=
  match eatLit ("tomorrow at ".data) l with
  | none => none
  | some r => hmTailOpt r

/-- `next (\w+)` at one position. -/
def mNextWord (l : List Char) : Option (List Char) :=
  match eatLit ("next ".data) l with
  | none => none
  | some r =>
    match r.span isWordC with
    | (w, _) => if w.isEmpty then none else some w

/-- `(\w+) at (\d{1,2}):?(\d{2})?\s*(am|pm)?` at one position.  The
greedy `(\w+)` cannot backtrack usefully: a shortened word group would be
followed by a word character, never by the required space. -/
def mWordAt (l : List Char) : Option (List Char × ℕ × Option ℕ × Option Bool) :=
  match l.span isWordC with
  | (w, rest) =>
    if w.isEmpty then none
    else
      match eatLit (" at ".data) rest with
      | none => none
      | some r => (hmTailOpt r).map (fun g => (w, g))

/-- `at (\d{1,2}):?(\d{2})?\s*(am|pm)?` at one position. -/
def mAt (l : List Char) : Option (ℕ × Option ℕ × Option Bool) :=
  match eatLit ("at ".data) l with
  | none => none
  | some r => hmTailOpt r

/-- `end of (?:the )?week` at one position. -/
def mEndOfWeek (l : List Char) : Option Unit :=
  match eatLit ("end of ".data) l with
  | none => none
  | some r =>
    let r1 :=
      match eatLit ("the ".data) r with
      | some r2 => r2
      | none => r
    (eatLit ("week".data) r1).map (fun _ => ())

/-- `beginning of (?:the )?week` at one position. -/
def mBeginningOfWeek (l : List Char) : Option Unit :=
  match eatLit ("beginning of ".data) l with
  | none => none
  | some r =>
    let r1 :=
      match eatLit ("the ".data) r with
      | some r2 => r2
      | none => r
    (eatLit ("week".data) r1).map (fun _ => ())

/-! ## Data model (`Intent`, `ConversationContext`, `ParsedBookingRequest`) -/

inductive Intent
  | BOOK_MEETING
  | CHECK_AVAILABILITY
  | RESCHEDULE_MEETING
  | CANCEL_MEETING
  | LIST_MEETINGS
  | GREETING
  | UNCLEAR
deriving DecidableEq

/-- One entry of `conversation_history`: the appended dict holds the user
text and a timestamp; the assistant reply is attached to the same entry at
the end of the turn. -/
structure HistoryEntry where
  user : String
  timestamp : ℕ
  assistant : Option String := none
deriving DecidableEq

structure ParsedBookingRequest where
  intent : Intent
  summary : Option String := none
  start_time : Option ℕ := none
  end_time : Option ℕ := none
  duration : ℕ := 60
  attendees : List String := []
  description : Option String := none
  meeting_type : String := "meeting"
  urgency : String := "normal"
  flexibility : String := "rigid"
deriving DecidableEq

/-- `ConversationContext`; the two `datetime.time` business-hour fields are
each split into an hour and a minute component. -/
structure ConversationContext where
  user_id : String := "default_user"
  last_intent : Option Intent := none
  pending_booking : Option ParsedBookingRequest := none
  conversation_history : List HistoryEntry := []
  user_timezone : String := "Asia/Kolkata"
  preferred_meeting_duration : ℕ := 60
  business_hours_start_hour : ℕ := 9
  business_hours_start_minute : ℕ := 0
  business_hours_end_hour : ℕ := 17
  business_hours_end_minute : ℕ := 0
deriving DecidableEq

def defaultContext : ConversationContext := {}

/-- Seconds-of-day of `business_hours_start`. -/
def bhsSod (ctx : ConversationContext) : ℕ :=
  ctx.business_hours_start_hour * 3600 + ctx.business_hours_start_minute * 60

/-- Seconds-of-day of `business_hours_end`. -/
def bheSod (ctx : ConversationContext) : ℕ :=
  ctx.business_hours_end_hour * 3600 + ctx.business_hours_end_minute * 60

/-! ## Resolvers of `_parse_time_advanced` -/

/-- The shared AM/PM adjustment (`pm` and hour different from 12 adds 12;
`am` turns hour 12 into 0); `true` encodes `pm`. -/
def adjustAmPm (hour : ℕ) (ap : Option Bool) : ℕ :=
  match ap with
  | some true => if hour ≠ 12 then hour + 12 else hour
  | some false => if hour = 12 then 0 else hour
  | none => hour

/-- `_parse_tomorrow_time`: groups are (hour digits, optional minutes,
optional meridiem). -/
def parse_tomorrow_time (now : ℕ) (g : ℕ × Option ℕ × Option Bool) : Except Unit ℕ :=
  replaceHM (now + 86400) (adjustAmPm g.1 g.2.2) (g.2.1.getD 0)

/-- `_parse_today_time`: today at the given time, rolled to tomorrow when
the moment is not strictly in the future. -/
def parse_today_time (now : ℕ) (g : ℕ × Option ℕ × Option Bool) : Except Unit ℕ := do
  let target ← replaceHM now (adjustAmPm g.1 g.2.2) (g.2.1.getD 0)
  if target ≤ now then return target + 86400 else return target

/-- The key/value pairs of the `weekdays` dictionary shared by
`_parse_next_weekday` and `_parse_weekday_time`. -/
def weekdayPairs : List (List Char × ℕ) :=
  [("monday".data, 0), ("tuesday".data, 1), ("wednesday".data, 2), ("thursday".data, 3),
   ("friday".data, 4), ("saturday".data, 5), ("sunday".data, 6),
   ("mon".data, 0), ("tue".data, 1), ("wed".data, 2), ("thu".data, 3), ("fri".data, 4),
   ("sat".data, 5), ("sun".data, 6)]

/-- Dictionary lookup. -/
def lookupIn : List (List Char × ℕ) → List Char → Option ℕ
  | [], _ => none
  | p :: ps, w => if w = p.1 then some p.2 else lookupIn ps w

/-- `weekdays[weekday_name]` with `None` for an unknown key. -/
def lookupWeekday (w : List Char) : Option ℕ := lookupIn weekdayPairs w

/-- `days_ahead` of `_parse_next_weekday`: the source computes the Python
int `target - now.weekday()` and adds 7 when that difference is ≤ 0, which
over naturals is the conditional below. -/
def daysAheadNext (target wd : ℕ) : ℕ :=
  if target ≤ wd then target + 7 - wd else target - wd

/-- `_parse_next_weekday`: an unknown word makes the resolver *return*
`None` (ending the pattern loop with `None`), it does not raise. -/
def parse_next_weekday (ctx : ConversationContext) (now : ℕ) (w : List Char) :
    Except Unit (Option ℕ) :=
  match lookupWeekday w with
  | none => .ok none
  | some tw =>
    (replaceHM (now + 86400 * daysAheadNext tw (weekdayOf now))
      ctx.business_hours_start_hour ctx.business_hours_start_minute).map some

/-- `_parse_weekday_time`: groups are (weekday word, hour, optional
minutes, optional meridiem).  `days_ahead < 0` adds 7; `days_ahead = 0`
computes today's candidate and jumps 7 days when it is not strictly in the
future. -/
def parse_weekday_time (now : ℕ) (g : List Char × ℕ × Option ℕ × Option Bool) :
    Except Unit (Option ℕ) :=
  let h := adjustAmPm g.2.1 g.2.2.2
  let m := g.2.2.1.getD 0
  match lookupWeekday g.1 with
  | none => .ok none
  | some tw =>
    let wd := weekdayOf now
    if tw < wd then (replaceHM (now + 86400 * (tw + 7 - wd)) h m).map some
    else if tw = wd then
      match replaceHM now h m with
      | .error e => .error e
      | .ok target =>
        if target ≤ now then (replaceHM (now + 86400 * 7) h m).map some
        else (replaceHM now h m).map some
    else (replaceHM (now + 86400 * (tw - wd)) h m).map some

/-- `_get_end_of_week`: the coming Friday (possibly today) at the
business-hours end time. -/
def get_end_of_week (ctx : ConversationContext) (now : ℕ) : Except Unit ℕ :=
  let wd := weekdayOf now
  let d := if wd ≤ 4 then 4 - wd else 4 + 7 - wd
  replaceHM (now + 86400 * d) ctx.business_hours_end_hour ctx.business_hours_end_minute

/-- `_get_beginning_of_week`: Monday of the following week at the
business-hours start time. -/
def get_beginning_of_week (ctx : ConversationContext) (now : ℕ) : Except Unit ℕ :=
  replaceHM (now + 86400 * (7 - weekdayOf now))
    ctx.business_hours_start_hour ctx.business_hours_start_minute

/-! ## `_parse_time_advanced` -/

/-- The `relative_patterns` list, in source order.  Each entry combines
the `re.search` of the pattern with its resolver: `none` means the
pattern did not match; `some (.error _)` means it matched but the
resolver raised (the loop then continues with the next pattern);
`some (.ok v)` means the loop returns `v` (which may itself be `None`,
as `_parse_next_weekday` and `_parse_weekday_time` return `None` for an
unknown weekday word). -/
def relative_patterns (ctx : ConversationContext) (now : ℕ) :
    List (List Char → Option (Except Unit (Option ℕ))) :=
  [fun l => (scanAll mInHours l).map (fun n => .ok (some (now + 3600 * n))),
   fun l => (scanAll mInMinutes l).map (fun n => .ok (some (now + 60 * n))),
   fun l => (scanAll mTomorrowAt l).map (fun g => (parse_tomorrow_time now g).map some),
   fun l => (scanAll mNextWord l).map (fun w => parse_next_weekday ctx now w),
   fun l => (scanAll mWordAt l).map (fun g => parse_weekday_time now g),
   fun l => (scanAll mAt l).map (fun g => (parse_today_time now g).map some),
   fun l => (scanAll hmTailReq l).map
     (fun g => (parse_today_time now (g.1, g.2.1, some g.2.2)).map some),
   fun l => (scanAll mEndOfWeek l).map (fun _ => (get_end_of_week ctx now).map some),
   fun l => (scanAll mBeginningOfWeek l).map
     (fun _ => (get_beginning_of_week ctx now).map some),
   fun l => (scanAll (fun s => eatLit ("next week same time".data) s) l).map
     (fun _ => .ok (some (now + 604800)))]

/-- The `for pattern, parser in relative_patterns` loop with its
`try/except: continue` body. -/
def runPatterns : List (List Char → Option (Except Unit (Option ℕ))) → List Char →
    Option ℕ
  | [], _ => none
  | p :: ps, input =>
    match p input with
    | none => runPatterns ps input
    | some (.error _) => runPatterns ps input
    | some (.ok v) => v

/-- `_parse_time_advanced`. -/
def parse_time_advanced (ctx : ConversationContext) (now : ℕ) (userInput : List Char) :
    Option ℕ :=
  runPatterns (relative_patterns ctx now) (userInput.map lowerC)

/-! ## `_fallback_parsing` -/

/-- Duration pattern `(\d+)\s*(?:hour|hr)s?` at one position; a match on
this pattern is converted to minutes (`num * 60`) by the source because
the pattern string contains `hour`. -/
def mDurHours (l : List Char) : Option ℕ :=
  match l.span isDigitC with
  | (ds, rest) =>
    if ds.isEmpty then none
    else
      let r2 := dropSpaces rest
      match eatLit ("hour".data) r2 with
      | some _ => some (digitsVal ds)
      | none =>
        match eatLit ("hr".data) r2 with
        | some _ => some (digitsVal ds)
        | none => none

/-- Duration pattern `(\d+)\s*(?:minute|min)s?` at one position; the
matched number is taken as minutes directly. -/
def mDurMins (l : List Char) : Option ℕ :=
  match l.span isDigitC with
  | (ds, rest) =>
    if ds.isEmpty then none
    else
      let r2 := dropSpaces rest
      match eatLit ("minute".data) r2 with
      | some _ => some (digitsVal ds)
      | none =>
        match eatLit ("min".data) r2 with
        | some _ => some (digitsVal ds)
        | none => none

/-- Duration pattern `(\d+)\s*h\s*(\d+)\s*m` at one position. -/
def mDurHM (l : List Char) : Option (ℕ × ℕ) :=
  match l.span isDigitC with
  | (ds, rest) =>
    if ds.isEmpty then none
    else
      match dropSpaces rest with
      | 'h' :: r2 =>
        match (dropSpaces r2).span isDigitC with
        | (ms, r3) =>
          if ms.isEmpty then none
          else
            match dropSpaces r3 with
            | 'm' :: _ => some (digitsVal ds, digitsVal ms)
            | _ => none
      | _ => none

/-- `_fallback_parsing`: keyword summary, first-match duration, time via
`_parse_time_advanced`, keyword flexibility. -/
def fallback_parsing (ctx : ConversationContext) (now : ℕ) (userInput : List Char) :
    ParsedBookingRequest :=
  let low := userInput.map lowerC
  let summary : String :=
    if containsSub ("interview".data) low then "Interview"
    else if containsSub ("call".data) low then "Call"
    else if containsSub ("appointment".data) low then "Appointment"
    else if containsSub ("standup".data) low then "Standup"
    else "Meeting"
  let duration : ℕ :=
    match scanAll mDurHours low with
    | some n => n * 60
    | none =>
      match scanAll mDurMins low with
      | some n => n
      | none =>
        match scanAll mDurHM low with
        | some g => g.1 * 60 + g.2
        | none => ctx.preferred_meeting_duration
  { intent := .BOOK_MEETING
    summary := some summary
    start_time := parse_time_advanced ctx now low
    duration := duration
    flexibility :=
      if containsSub ("flexible".data) low || containsSub ("around".data) low ||
          containsSub ("roughly".data) low then "flexible"
      else "rigid" }

/-! ## Slot search (`_suggest_alternative_times`) -/

/-- `search_days` by flexibility tag (any other string falls to the rigid
branch, as in the source `else`). -/
def searchDays (flexibility : String) : ℕ :=
  if flexibility = "very_flexible" then 14 else if flexibility = "flexible" then 7 else 2

/-- Step size in seconds for a given day offset:
`time_increments[0]` on day 0, `time_increments[-1]` afterwards. -/
def incFor (flexibility : String) (dayOffset : ℕ) : ℕ :=
  if dayOffset = 0 then 1800
  else if flexibility = "very_flexible" then 7200
  else if flexibility = "flexible" then 3600
  else 1800

/-- `(base_time + timedelta(days=k)).replace(hour=bh_start.hour,
minute=bh_start.minute)`: the replace keeps the second component of the
requested time (`requested % 60` at this model's one-second resolution). -/
def dayStartSlot (ctx : ConversationContext) (requested k : ℕ) : ℕ :=
  (dayOf requested + k) * 86400 + bhsSod ctx + requested % 60

/-- Same-day `end_time` with business-hours end, second kept. -/
def dayEndSlot (ctx : ConversationContext) (requested k : ℕ) : ℕ :=
  (dayOf requested + k) * 86400 + bheSod ctx + requested % 60

/-- Number of iterations of the inner `while current_time +
timedelta(minutes=duration) <= end_time` loop. -/
def numSlots (s e dur inc : ℕ) : ℕ :=
  if s + dur * 60 ≤ e then (e - (s + dur * 60)) / inc + 1 else 0

/-- The candidate start times visited on day `k`, in visit order. -/
def daySlots (ctx : ConversationContext) (requested dur : ℕ) (flexibility : String)
    (k : ℕ) : List ℕ :=
  (List.range (numSlots (dayStartSlot ctx requested k) (dayEndSlot ctx requested k)
      dur (incFor flexibility k))).map
    (fun j => dayStartSlot ctx requested k + j * incFor flexibility k)

/-- All candidate start times visited by the two nested loops, in visit
order (days outer, slots inner). -/
def visitedSlots (ctx : ConversationContext) (requested dur : ℕ)
    (flexibility : String) : List ℕ :=
  (List.range (searchDays flexibility)).flatMap (daySlots ctx requested dur flexibility)

/-- The accumulation loop: append each slot the collaborator reports free
and return as soon as 5 are collected (`cap` counts the remaining room). -/
def searchSlots (avail : ℕ → ℕ → Bool) (dur : ℕ) : List ℕ → ℕ → List ℕ
  | [], _ => []
  | t :: ts, cap =>
    if avail t dur then
      if cap ≤ 1 then [t] else t :: searchSlots avail dur ts (cap - 1)
    else searchSlots avail dur ts cap

/-- `_suggest_alternative_times`, with the collaborator's
`check_availability` abstracted as the boolean oracle `avail`. -/
def suggest_alternative_times (ctx : ConversationContext) (requested dur : ℕ)
    (flexibility : String) (avail : ℕ → ℕ → Bool) : List ℕ :=
  searchSlots avail dur (visitedSlots ctx requested dur flexibility) 5

/-! ## `_handle_booking_request` -/

/-- The calendar-collaborator operations the booking handler issues
directly (the alternative search issues further availability checks
through its `avail` oracle). -/
inductive CalendarCall
  | availabilityCheck (start dur : ℕ)
  | createEvent (summary : Option String) (start dur : ℕ)
deriving DecidableEq

/-- The response descriptor produced by the booking handler (the
`situation` tag of `_generate_response`, plus the generic apology emitted
by the enclosing `except` block). -/
inductive BookingResponse
  | unclearTime
  | outsideBusinessHours
  | bookingSuccessful
  | conflictWithAlternatives (shown : List ℕ)
  | noAlternativesFound
  | internalError
deriving DecidableEq

structure BookingOutcome where
  response : BookingResponse
  calls : List CalendarCall
  pending_booking : Option ParsedBookingRequest
  last_intent : Option Intent
deriving DecidableEq

/-- `_check_business_hours`: inclusive at both wall-clock bounds. -/
def check_business_hours (ctx : ConversationContext) (t : ℕ) : Bool :=
  decide (bhsSod ctx ≤ sodOf t) && decide (sodOf t ≤ bheSod ctx)

/-- `_handle_booking_request`.  A `None` summary makes the f-string
`request.summary.lower()` raise `AttributeError`, which the enclosing
`except` turns into the generic apology; on the success path this happens
only after the event was created and the context already mutated. -/
def handle_booking_request (ctx : ConversationContext) (req : ParsedBookingRequest)
    (avail : ℕ → ℕ → Bool) : BookingOutcome :=
  match req.start_time with
  | none =>
    match req.summary with
    | none => ⟨.internalError, [], ctx.pending_booking, ctx.last_intent⟩
    | some _ => ⟨.unclearTime, [], ctx.pending_booking, ctx.last_intent⟩
  | some t =>
    if check_business_hours ctx t then
      if avail t req.duration then
        match req.summary with
        | none =>
          ⟨.internalError,
            [.availabilityCheck t req.duration, .createEvent none t req.duration],
            none, some .BOOK_MEETING⟩
        | some s =>
          ⟨.bookingSuccessful,
            [.availabilityCheck t req.duration, .createEvent (some s) t req.duration],
            none, some .BOOK_MEETING⟩
      else
        let alts := suggest_alternative_times ctx t req.duration req.flexibility avail
        if alts.isEmpty then
          ⟨.noAlternativesFound, [.availabilityCheck t req.duration],
            ctx.pending_booking, ctx.last_intent⟩
        else
          ⟨.conflictWithAlternatives (alts.take 3), [.availabilityCheck t req.duration],
            some req, ctx.last_intent⟩
    else ⟨.outsideBusinessHours, [], ctx.pending_booking, ctx.last_intent⟩

/-! ## Conversation history (`run`) -/

/-- The most recent `n` entries of a list (`l[-n:]`). -/
def lastN {α : Type} (n : ℕ) (l : List α) : List α := l.drop (l.length - n)

/-- The history update a turn of `run` performs: append the new entry and
truncate to the most recent 10 when the length exceeds 10.  The assistant
reply is later written into the appended (and always retained) last entry,
so a full turn is one `appendHistory` of the completed entry. -/
def appendHistory (h : List HistoryEntry) (e : HistoryEntry) : List HistoryEntry :=
  let h2 := h ++ [e]
  if 10 < h2.length then lastN 10 h2 else h2

/-! ## Calendar service (`EnhancedCalendarService`) -/

/-- Failure of an underlying Google-API call: `HttpError` or any other
exception (the two `except` arms of each operation). -/
inductive ApiFailure
  | http
  | other
deriving DecidableEq

/-- An event item returned by the events API, restricted to the fields
the service reads.  The result of `_parse_datetime` on the raw timestamp
strings is modelled directly; `none` models an unparseable timestamp
(`_parse_datetime` returns `None` on error). -/
structure ApiEvent where
  id : String
  summary : String := "Untitled Meeting"
  status : String := "confirmed"
  start_time : Option ℕ := none
  end_time : Option ℕ := none
deriving DecidableEq

/-- `event.get('status', '').lower() == 'cancelled'`. -/
def isCancelled (e : ApiEvent) : Bool := e.status.data.map lowerC = ("cancelled".data)

/-- `check_availability`: the API outcome (the try-block's interaction
with the remote service) is abstracted as an `Except`; both `except` arms
return `False`. -/
def check_availability (api : Except ApiFailure (List ApiEvent)) : Bool :=
  match api with
  | .ok events => (events.filter (fun e => !isCancelled e)).isEmpty
  | .error _ => false

/-- Outcome of the insert call inside `create_event`. -/
inductive CreateApiOutcome
  | created (htmlLink : Option String)
  | httpError (reason : Option String)
  | otherError (message : String)
deriving DecidableEq

/-- Stands for the `strftime` rendering of a timestamp inside a message. -/
def fmtTimestamp (t : ℕ) : String := toString t

/-- `create_event` returns a message string on every path: a confirmation
on success and, in both `except` arms, an error string with the verbatim
prefix of the source (never a boolean and never a list). -/
def create_event (api : CreateApiOutcome) (summary : String) (start dur : ℕ) : String :=
  match api with
  | .created link =>
    let msg := "Successfully booked: " ++ summary ++ " on " ++ fmtTimestamp start ++
      " duration: " ++ toString dur ++ " minutes"
    match link with
    | some l => msg ++ " link: " ++ l
    | none => msg
  | .httpError reason => " Failed to create event: " ++ reason.getD "Unknown error"
  | .otherError m => " Failed to create event: " ++ m

/-- A formatted entry of `get_upcoming_events`. -/
structure FormattedEvent where
  id : String
  summary : String
  start_time : ℕ
  end_time : ℕ
  duration : Int
deriving DecidableEq

/-- `get_upcoming_events`: skips cancelled events and events whose
timestamps fail to parse; both `except` arms return the empty list. -/
def get_upcoming_events (api : Except ApiFailure (List ApiEvent)) : List FormattedEvent :=
  match api with
  | .error _ => []
  | .ok events =>
    events.filterMap (fun e =>
      if isCancelled e then none
      else
        match e.start_time, e.end_time with
        | some s, some t => some ⟨e.id, e.summary, s, t, (Int.ofNat t - Int.ofNat s).tdiv 60⟩
        | _, _ => none)

/-- `cancel_event`: a reference that resolves to no event returns `False`
(no exception), and a failing delete call is caught and returns `False`. -/
def cancel_event (findResult : Option String) (deleteResult : Except ApiFailure Unit) :
    Bool :=
  match findResult with
  | none => false
  | some _ =>
    match deleteResult with
    | .ok _ => true
    | .error _ => false

/-- `reschedule_event`: same fail-soft shape as `cancel_event`, with the
get/update interaction abstracted as one outcome. -/
def reschedule_event (findResult : Option String) (updateResult : Except ApiFailure Unit) :
    Bool :=
  match findResult with
  | none => false
  | some _ =>
    match updateResult with
    | .ok _ => true
    | .error _ => false

/-- `get_busy_times`: busy intervals of the non-cancelled, parseable
events; the catch-all `except` returns the empty list. -/
def get_busy_times (api : Except ApiFailure (List ApiEvent)) : List (ℕ × ℕ) :=
  match api with
  | .error _ => []
  | .ok events =>
    events.filterMap (fun e =>
      if isCancelled e then none
      else
        match e.start_time, e.end_time with
        | some s, some t => some (s, t)
        | _, _ => none)

/-! ## Helper lemmas -/

theorem lookupIn_lt (ps : List (List Char × ℕ)) (w : List Char) (tw : ℕ)
    (hall : ∀ p ∈ ps, p.2 < 7) (h : lookupIn ps w = some tw) : tw < 7 := by
  induction ps with
  | nil => exact Option.noConfusion h
  | cons p ps ih =>
    unfold lookupIn at h
    split_ifs at h with hw
    · injection h with h2
      have := hall p (List.mem_cons_self _ _)
      omega
    · exact ih (fun q hq => hall q (List.mem_cons_of_mem _ hq)) h

theorem lookupWeekday_lt (w : List Char) (tw : ℕ) (h : lookupWeekday w = some tw) :
    tw < 7 :=
  lookupIn_lt weekdayPairs w tw (by decide) h

theorem incFor_pos (flexibility : String) (k : ℕ) : 0 < incFor flexibility k := by
  unfold incFor
  split_ifs <;> omega

/-- The early-exit accumulation loop collects exactly the first `cap`
accepted slots of the scan order. -/
theorem searchSlots_eq (avail : ℕ → ℕ → Bool) (dur : ℕ) (l : List ℕ) (cap : ℕ)
    (hcap : 1 ≤ cap) :
    searchSlots avail dur l cap = (l.filter (fun t => avail t dur)).take cap := by
  induction l generalizing cap with
  | nil => simp [searchSlots]
  | cons t ts ih =>
    by_cases h : avail t dur
    · obtain ⟨c, rfl⟩ : ∃ c, cap = c + 1 := ⟨cap - 1, by omega⟩
      rw [searchSlots, if_pos h]
      by_cases hc : c = 0
      · subst hc
        simp [List.filter_cons, h]
      · rw [if_neg (by omega)]
        rw [ih (c + 1 - 1) (by omega)]
        simp [List.filter_cons, h]
    · rw [searchSlots, if_neg h, ih cap hcap]
      simp [List.filter_cons, h]

/-- Every slot visited on day `k` starts no earlier than that day's
business start and leaves room for the full meeting before that day's
business end (both carried to the requested time's second). -/
theorem daySlots_bounds (ctx : ConversationContext) (requested dur k t : ℕ)
    (flexibility : String) (ht : t ∈ daySlots ctx requested dur flexibility k) :
    dayStartSlot ctx requested k ≤ t ∧ t + dur * 60 ≤ dayEndSlot ctx requested k := by
  unfold daySlots at ht
  rcases List.mem_map.1 ht with ⟨j, hj, rfl⟩
  rw [List.mem_range] at hj
  unfold numSlots at hj
  split_ifs at hj with hse
  · have hj2 : j ≤ (dayEndSlot ctx requested k - (dayStartSlot ctx requested k + dur * 60)) /
        incFor flexibility k := by omega
    have hmul := (Nat.le_div_iff_mul_le (incFor_pos flexibility k)).1 hj2
    refine ⟨Nat.le_add_right _ _, ?_⟩
    generalize j * incFor flexibility k = ji at hmul ⊢
    omega
  · omega

/-- Wall-clock window of any visited slot. -/
theorem visitedSlots_window (ctx : ConversationContext) (requested dur t : ℕ)
    (flexibility : String)
    (hbh : ctx.business_hours_start_hour < 24 ∧ ctx.business_hours_start_minute < 60 ∧
      ctx.business_hours_end_hour < 24 ∧ ctx.business_hours_end_minute < 60)
    (ht : t ∈ visitedSlots ctx requested dur flexibility) :
    bhsSod ctx + requested % 60 ≤ sodOf t ∧
      sodOf t + dur * 60 ≤ bheSod ctx + requested % 60 := by
  rcases List.mem_flatMap.1 ht with ⟨k, _, htk⟩
  have hb := daySlots_bounds ctx requested dur k t flexibility htk
  unfold dayStartSlot dayEndSlot at hb
  unfold bhsSod bheSod at hb ⊢
  unfold sodOf dayOf at *
  obtain ⟨h1, h2, h3, h4⟩ := hbh
  omega

/-- The visited slots are strictly increasing in visit order. -/
theorem visitedSlots_pairwise (ctx : ConversationContext) (requested dur : ℕ)
    (flexibility : String)
    (hbh : ctx.business_hours_end_hour < 24 ∧ ctx.business_hours_end_minute < 60)
    (hdur : 1 ≤ dur) :
    (visitedSlots ctx requested dur flexibility).Pairwise (· < ·) := by
  unfold visitedSlots
  rw [List.flatMap_def, List.pairwise_flatten]
  refine ⟨?_, ?_⟩
  · intro l hl
    rcases List.mem_map.1 hl with ⟨k, _, rfl⟩
    unfold daySlots
    refine List.Pairwise.map _ (fun a b hab => ?_) (List.pairwise_lt_range _)
    have := incFor_pos flexibility k
    have : a * incFor flexibility k < b * incFor flexibility k :=
      Nat.mul_lt_mul_of_lt_of_le hab (le_refl _) this
    omega
  · rw [List.pairwise_map]
    refine (List.pairwise_lt_range _).imp_of_mem ?_
    intro k k' _ _ hkk x hx y hy
    have hbx := daySlots_bounds ctx requested dur k x flexibility hx
    have hby := daySlots_bounds ctx requested dur k' y flexibility hy
    unfold dayStartSlot dayEndSlot bhsSod bheSod at hbx hby
    obtain ⟨h1, h2⟩ := hbh
    have hk86 : (dayOf requested + k) * 86400 + 86400 ≤ (dayOf requested + k') * 86400 := by
      have : dayOf requested + k + 1 ≤ dayOf requested + k' := by omega
      calc (dayOf requested + k) * 86400 + 86400 = (dayOf requested + k + 1) * 86400 := by ring
        _ ≤ (dayOf requested + k') * 86400 := Nat.mul_le_mul_right _ this
    omega

/-- `l[-n:]` of a list that is already at most `n` long, extended and cut
again, equals the cut of the full extension. -/
theorem lastN_lastN_append {α : Type} (n : ℕ) (L M : List α) :
    lastN n (lastN n L ++ M) = lastN n (L ++ M) := by
  unfold lastN
  by_cases h : L.length ≤ n
  · rw [Nat.sub_eq_zero_of_le h, List.drop_zero]
  · have hd : L.length - n ≤ L.length := Nat.sub_le _ _
    rw [← List.drop_append_of_le_length hd, List.drop_drop]
    congr 1
    simp only [List.length_append, List.length_drop]
    omega

theorem appendHistory_eq_lastN (z : List HistoryEntry) (e : HistoryEntry) :
    appendHistory z e = lastN 10 (z ++ [e]) := by
  show (if 10 < (z ++ [e]).length then lastN 10 (z ++ [e]) else z ++ [e]) =
    lastN 10 (z ++ [e])
  split_ifs with h
  · rfl
  · unfold lastN
    rw [Nat.sub_eq_zero_of_le (by omega : (z ++ [e]).length ≤ 10), List.drop_zero]

theorem runPatterns_cons_none (p : List Char → Option (Except Unit (Option ℕ)))
    (ps : List (List Char → Option (Except Unit (Option ℕ)))) (input : List Char)
    (h : p input = none) : runPatterns (p :: ps) input = runPatterns ps input := by
  simp only [runPatterns, h]

theorem runPatterns_cons_ok (p : List Char → Option (Except Unit (Option ℕ)))
    (ps : List (List Char → Option (Except Unit (Option ℕ)))) (input : List Char)
    (v : Option ℕ) (h : p input = some (.ok v)) : runPatterns (p :: ps) input = v := by
  simp only [runPatterns, h]

/-- Once the start time is resolved, the booking handler never answers
with the clarification request and always issues at least one
calendar call when the time is within business hours. -/
theorem handle_resolved_in_hours (ctx : ConversationContext) (req : ParsedBookingRequest)
    (avail : ℕ → ℕ → Bool) (t : ℕ) (hst : req.start_time = some t)
    (hbh : check_business_hours ctx t = true) :
    (handle_booking_request ctx req avail).response ≠ BookingResponse.unclearTime ∧
    (handle_booking_request ctx req avail).calls ≠ [] := by
  rcases req with ⟨i, summ, st, et, dur, att, desc, mt, urg, flex⟩
  simp only at hst
  subst hst
  cases summ <;> cases h : avail t dur <;>
    simp only [handle_booking_request, hbh, if_true, h] <;>
    (try split_ifs) <;> simp

/-! ## Claim theorems -/

set_option maxRecDepth 4000

/-- C1: for the fragment `next week same time` the deterministic parser
returns `None` for every current time and context: the earlier pattern
`next (\w+)` matches first and its resolver returns `None` for the
unknown weekday `week` without raising, which ends the pattern loop, so
the dedicated `next week same time` pattern is never reached and the
result is not `now + 7 days`. -/
theorem c1_next_week_same_time_returns_none (ctx : ConversationContext) (now : ℕ) :
    parse_time_advanced ctx now ("next week same time".data) = none := by
  have hlow : ("next week same time".data).map lowerC = "next week same time".data := by
    decide
  have h1 : scanAll mInHours ("next week same time".data) = none := by decide
  have h2 : scanAll mInMinutes ("next week same time".data) = none := by decide
  have h3 : scanAll mTomorrowAt ("next week same time".data) = none := by decide
  have h4 : scanAll mNextWord ("next week same time".data) = some ("week".data) := by
    decide
  unfold parse_time_advanced relative_patterns
  rw [hlow]
  rw [runPatterns_cons_none _ _ _ (by simp only [h1, Option.map_none'])]
  rw [runPatterns_cons_none _ _ _ (by simp only [h2, Option.map_none'])]
  rw [runPatterns_cons_none _ _ _ (by simp only [h3, Option.map_none'])]
  rw [runPatterns_cons_ok _ _ _ none (by simp only [h4, Option.map_some']; rfl)]

/-- C5: the fallback extractor on `book a call for 45 min tomorrow at
2pm` yields summary Call, duration 45 minutes, start tomorrow 14:00 in
the context timezone, and flexibility rigid, for every current time. -/
theorem c5_fallback_call_45min_tomorrow_2pm (now : ℕ) :
    (fallback_parsing defaultContext now
        ("book a call for 45 min tomorrow at 2pm".data)).summary = some "Call" ∧
    (fallback_parsing defaultContext now
        ("book a call for 45 min tomorrow at 2pm".data)).duration = 45 ∧
    (fallback_parsing defaultContext now
        ("book a call for 45 min tomorrow at 2pm".data)).start_time =
      some ((dayOf now + 1) * 86400 + 14 * 3600) ∧
    (fallback_parsing defaultContext now
        ("book a call for 45 min tomorrow at 2pm".data)).flexibility = "rigid" := by
  have hlow : ("book a call for 45 min tomorrow at 2pm".data).map lowerC =
      "book a call for 45 min tomorrow at 2pm".data := by decide
  refine ⟨?_, ?_, ?_, ?_⟩
  · simp only [fallback_parsing, hlow]
    decide
  · simp only [fallback_parsing, hlow]
    decide
  · simp only [fallback_parsing, hlow]
    have h1 : scanAll mInHours ("book a call for 45 min tomorrow at 2pm".data) = none := by
      decide
    have h2 : scanAll mInMinutes ("book a call for 45 min tomorrow at 2pm".data) =
        none := by decide
    have h3 : scanAll mTomorrowAt ("book a call for 45 min tomorrow at 2pm".data) =
        some (2, none, some true) := by decide
    unfold parse_time_advanced relative_patterns
    rw [hlow]
    rw [runPatterns_cons_none _ _ _ (by simp only [h1, Option.map_none'])]
    rw [runPatterns_cons_none _ _ _ (by simp only [h2, Option.map_none'])]
    rw [runPatterns_cons_ok _ _ _
      (some (dayOf (now + 86400) * 86400 + 14 * 3600 + 0 * 60))
      (by simp only [h3, Option.map_some']; rfl)]
    have : dayOf (now + 86400) = dayOf now + 1 := by
      unfold dayOf
      omega
    rw [this]
  · simp only [fallback_parsing, hlow]
    decide

/-- C2 counterexample: on `schedule something flexible around next
monday` (current time: Wednesday of week 0 at 10:00) the fallback
extractor resolves the start time to next Monday 09:00 — it is not null —
and the booking handler does not ask for clarification and does issue
calendar-collaborator calls. -/
theorem c2_counterexample :
    (fallback_parsing defaultContext 208800
        ("schedule something flexible around next monday".data)).start_time =
      some 637200 ∧
    (handle_booking_request defaultContext
        (fallback_parsing defaultContext 208800
          ("schedule something flexible around next monday".data))
        (fun _ _ => true)).response ≠ BookingResponse.unclearTime ∧
    (handle_booking_request defaultContext
        (fallback_parsing defaultContext 208800
          ("schedule something flexible around next monday".data))
        (fun _ _ => true)).calls ≠ [] := by
  refine ⟨rfl, ?_, ?_⟩ <;> decide

/-- C2 amended: the fallback extractor on `schedule something flexible
around next monday` produces flexibility flexible and a *non-null* start
time, namely the next Monday at the business-hours start (09:00); the
booking handler therefore does not ask for clarification and issues at
least one calendar-collaborator call, whatever the availability oracle
answers. -/
theorem c2_amended_resolves_next_monday (now : ℕ) (avail : ℕ → ℕ → Bool) :
    (fallback_parsing defaultContext now
        ("schedule something flexible around next monday".data)).summary =
      some "Meeting" ∧
    (fallback_parsing defaultContext now
        ("schedule something flexible around next monday".data)).flexibility =
      "flexible" ∧
    (fallback_parsing defaultContext now
        ("schedule something flexible around next monday".data)).start_time =
      some ((dayOf now + daysAheadNext 0 (weekdayOf now)) * 86400 + 32400) ∧
    (handle_booking_request defaultContext
        (fallback_parsing defaultContext now
          ("schedule something flexible around next monday".data))
        avail).response ≠ BookingResponse.unclearTime ∧
    (handle_booking_request defaultContext
        (fallback_parsing defaultContext now
          ("schedule something flexible around next monday".data))
        avail).calls ≠ [] := by
  have hlow : ("schedule something flexible around next monday".data).map lowerC =
      "schedule something flexible around next monday".data := by decide
  have hst : (fallback_parsing defaultContext now
      ("schedule something flexible around next monday".data)).start_time =
      some (dayOf (now + 86400 * daysAheadNext 0 (weekdayOf now)) * 86400 +
        9 * 3600 + 0 * 60) := by
    have h1 : scanAll mInHours ("schedule something flexible around next monday".data) =
        none := by decide
    have h2 : scanAll mInMinutes
        ("schedule something flexible around next monday".data) = none := by decide
    have h3 : scanAll mTomorrowAt
        ("schedule something flexible around next monday".data) = none := by decide
    have h4 : scanAll mNextWord
        ("schedule something flexible around next monday".data) =
        some ("monday".data) := by decide
    simp only [fallback_parsing, hlow]
    unfold parse_time_advanced relative_patterns
    rw [hlow]
    rw [runPatterns_cons_none _ _ _ (by simp only [h1, Option.map_none'])]
    rw [runPatterns_cons_none _ _ _ (by simp only [h2, Option.map_none'])]
    rw [runPatterns_cons_none _ _ _ (by simp only [h3, Option.map_none'])]
    rw [runPatterns_cons_ok _ _ _
      (some (dayOf (now + 86400 * daysAheadNext 0 (weekdayOf now)) * 86400 +
        9 * 3600 + 0 * 60))
      (by simp only [h4, Option.map_some']; rfl)]
  have hDA : dayOf (now + 86400 * daysAheadNext 0 (weekdayOf now)) =
      dayOf now + daysAheadNext 0 (weekdayOf now) := by
    unfold dayOf
    generalize daysAheadNext 0 (weekdayOf now) = d
    omega
  have hbhT : check_business_hours defaultContext
      (dayOf (now + 86400 * daysAheadNext 0 (weekdayOf now)) * 86400 +
        9 * 3600 + 0 * 60) = true := by
    have e1 : check_business_hours defaultContext
        (dayOf (now + 86400 * daysAheadNext 0 (weekdayOf now)) * 86400 +
          9 * 3600 + 0 * 60) =
        (decide (32400 ≤ sodOf (dayOf (now + 86400 * daysAheadNext 0 (weekdayOf now)) *
            86400 + 9 * 3600 + 0 * 60)) &&
          decide (sodOf (dayOf (now + 86400 * daysAheadNext 0 (weekdayOf now)) * 86400 +
            9 * 3600 + 0 * 60) ≤ 61200)) := rfl
    rw [e1, Bool.and_eq_true, decide_eq_true_eq, decide_eq_true_eq]
    unfold sodOf
    generalize dayOf (now + 86400 * daysAheadNext 0 (weekdayOf now)) = A
    constructor <;> omega
  have hmain := handle_resolved_in_hours defaultContext
    (fallback_parsing defaultContext now
      ("schedule something flexible around next monday".data)) avail _ hst hbhT
  refine ⟨?_, ?_, ?_, hmain.1, hmain.2⟩
  · simp only [fallback_parsing, hlow]
    decide
  · simp only [fallback_parsing, hlow]
    decide
  · rw [hst, hDA]

/-- C4 counterexample: `create_event` reports an underlying API failure
as a non-empty error-message string, not as boolean false and not as an
empty list. -/
theorem c4_counterexample :
    create_event (CreateApiOutcome.httpError none) "Team sync" 36000 30 =
      " Failed to create event: Unknown error" ∧
    (" Failed to create event: Unknown error" : String) ≠ "" :=
  ⟨rfl, by decide⟩

/-- C4 amended: every calendar operation converts every underlying API
failure into an in-band value instead of propagating it: false for
`check_availability`, `cancel_event` (including an unresolvable
reference) and `reschedule_event`, the empty list for
`get_upcoming_events` and `get_busy_times`, and an error-message string
for `create_event`. -/
theorem c4_amended_fail_soft (f1 f2 f3 f4 : ApiFailure) (reason : Option String)
    (msg summary : String) (start dur : ℕ) (eventId : String)
    (del upd : Except ApiFailure Unit) :
    check_availability (.error f1) = false ∧
    create_event (.httpError reason) summary start dur =
      " Failed to create event: " ++ reason.getD "Unknown error" ∧
    create_event (.otherError msg) summary start dur = " Failed to create event: " ++ msg ∧
    get_upcoming_events (.error f2) = [] ∧
    cancel_event none del = false ∧
    cancel_event (some eventId) (.error f3) = false ∧
    reschedule_event none upd = false ∧
    reschedule_event (some eventId) (.error f4) = false ∧
    get_busy_times (.error f1) = [] :=
  ⟨rfl, rfl, rfl, rfl, rfl, rfl, rfl, rfl, rfl⟩

/-- C7: a booking request whose start time is unresolved never triggers a
calendar operation and never touches the pending booking; the response is
the clarification request exactly when the summary field is non-null,
while a null summary (which the oracle path can produce from an explicit
JSON null) makes the handler raise internally and reply with the generic
error apology instead of the clarification. -/
theorem c7_null_start_no_calendar_call (ctx : ConversationContext)
    (avail : ℕ → ℕ → Bool) (req : ParsedBookingRequest)
    (hst : req.start_time = none) :
    (handle_booking_request ctx req avail).calls = [] ∧
    (handle_booking_request ctx req avail).pending_booking = ctx.pending_booking ∧
    (req.summary = none →
      (handle_booking_request ctx req avail).response = BookingResponse.internalError) ∧
    (∀ s, req.summary = some s →
      (handle_booking_request ctx req avail).response = BookingResponse.unclearTime) := by
  rcases req with ⟨i, summ, st, et, dur, att, desc, mt, urg, flex⟩
  simp only at hst
  subst hst
  cases summ <;> simp [handle_booking_request]

/-- C7 witness: the all-defaults request (null summary, null start). -/
theorem c7_null_start_witness :
    (handle_booking_request defaultContext { intent := Intent.BOOK_MEETING }
        (fun _ _ => false)).calls = [] ∧
    (handle_booking_request defaultContext { intent := Intent.BOOK_MEETING }
        (fun _ _ => false)).pending_booking = defaultContext.pending_booking ∧
    (({ intent := Intent.BOOK_MEETING } : ParsedBookingRequest).summary = none →
      (handle_booking_request defaultContext { intent := Intent.BOOK_MEETING }
          (fun _ _ => false)).response = BookingResponse.internalError) ∧
    (∀ s, ({ intent := Intent.BOOK_MEETING } : ParsedBookingRequest).summary = some s →
      (handle_booking_request defaultContext { intent := Intent.BOOK_MEETING }
          (fun _ _ => false)).response = BookingResponse.unclearTime) :=
  c7_null_start_no_calendar_call defaultContext (fun _ _ => false)
    { intent := Intent.BOOK_MEETING } rfl

/-- C3: for every weekday word, `next <weekday>` resolves to the next
occurrence of that weekday strictly after today (seven days ahead when
today already is that weekday, never same-day), pinned to the
business-hours start time; and `<weekday> at <time>` with today's weekday
resolves to today exactly when the given time is still strictly in the
future, and jumps seven days ahead when it has already passed. -/
theorem c3_weekday_resolution (ctx : ConversationContext) (now : ℕ) (w : List Char)
    (tw hour : ℕ) (minutes : Option ℕ) (ap : Option Bool)
    (hlk : lookupWeekday w = some tw)
    (hsh : ctx.business_hours_start_hour < 24)
    (hsm : ctx.business_hours_start_minute < 60)
    (hh : adjustAmPm hour ap < 24) (hm : minutes.getD 0 < 60) :
    (∃ t, parse_next_weekday ctx now w = .ok (some t) ∧
      dayOf now < dayOf t ∧ dayOf t ≤ dayOf now + 7 ∧ weekdayOf t = tw ∧
      sodOf t = bhsSod ctx ∧ (weekdayOf now = tw → dayOf t = dayOf now + 7)) ∧
    (weekdayOf now = tw →
      (now < dayOf now * 86400 + adjustAmPm hour ap * 3600 + minutes.getD 0 * 60 →
        parse_weekday_time now (w, hour, minutes, ap) =
          .ok (some (dayOf now * 86400 + adjustAmPm hour ap * 3600 +
            minutes.getD 0 * 60))) ∧
      (dayOf now * 86400 + adjustAmPm hour ap * 3600 + minutes.getD 0 * 60 ≤ now →
        parse_weekday_time now (w, hour, minutes, ap) =
          .ok (some ((dayOf now + 7) * 86400 + adjustAmPm hour ap * 3600 +
            minutes.getD 0 * 60)))) := by
  have htw : tw < 7 := lookupWeekday_lt w tw hlk
  constructor
  · have hd : 1 ≤ daysAheadNext tw (weekdayOf now) ∧ daysAheadNext tw (weekdayOf now) ≤ 7 ∧
        (dayOf now + daysAheadNext tw (weekdayOf now)) % 7 = tw ∧
        (weekdayOf now = tw → daysAheadNext tw (weekdayOf now) = 7) := by
      unfold daysAheadNext weekdayOf
      split_ifs with hle <;> omega
    refine ⟨dayOf (now + 86400 * daysAheadNext tw (weekdayOf now)) * 86400 +
        ctx.business_hours_start_hour * 3600 + ctx.business_hours_start_minute * 60,
        ?_, ?_, ?_, ?_, ?_, ?_⟩
    · unfold parse_next_weekday
      rw [hlk]
      show Except.map some (replaceHM (now + 86400 * daysAheadNext tw (weekdayOf now))
        ctx.business_hours_start_hour ctx.business_hours_start_minute) = _
      unfold replaceHM
      rw [if_pos ⟨hsh, hsm⟩]
      rfl
    all_goals
      simp only [weekdayOf, dayOf, sodOf, bhsSod] at hd ⊢
      generalize daysAheadNext tw (now / 86400 % 7) = d at hd ⊢
      omega
  · intro hwd
    have hrepn : replaceHM now (adjustAmPm hour ap) (minutes.getD 0) =
        .ok (dayOf now * 86400 + adjustAmPm hour ap * 3600 + minutes.getD 0 * 60) := by
      unfold replaceHM
      rw [if_pos ⟨hh, hm⟩]
    have hrep7 : replaceHM (now + 86400 * 7) (adjustAmPm hour ap) (minutes.getD 0) =
        .ok ((dayOf now + 7) * 86400 + adjustAmPm hour ap * 3600 +
          minutes.getD 0 * 60) := by
      unfold replaceHM
      rw [if_pos ⟨hh, hm⟩]
      have : dayOf (now + 86400 * 7) = dayOf now + 7 := by
        unfold dayOf
        omega
      rw [this]
    constructor
    · intro hfut
      unfold parse_weekday_time
      rw [hlk]
      simp only [hwd]
      rw [if_neg (lt_irrefl tw), if_pos True.intro]
      split
      · rename_i heq
        rw [hrepn] at heq
        exact absurd heq (by simp)
      · rename_i target heq
        rw [hrepn] at heq
        injection heq with h2
        subst h2
        rw [if_neg (by omega), hrepn]
        rfl
    · intro hpast
      unfold parse_weekday_time
      rw [hlk]
      simp only [hwd]
      rw [if_neg (lt_irrefl tw), if_pos True.intro]
      split
      · rename_i heq
        rw [hrepn] at heq
        exact absurd heq (by simp)
      · rename_i target heq
        rw [hrepn] at heq
        injection heq with h2
        subst h2
        rw [if_pos hpast, hrep7]
        rfl

/-- C3 witness: Monday of week 0 at 10:00, resolving `next monday` and
`monday at 11`. -/
theorem c3_weekday_resolution_witness :
    (∃ t, parse_next_weekday defaultContext 36000 ("monday".data) = .ok (some t) ∧
      dayOf 36000 < dayOf t ∧ dayOf t ≤ dayOf 36000 + 7 ∧ weekdayOf t = 0 ∧
      sodOf t = bhsSod defaultContext ∧ (weekdayOf 36000 = 0 → dayOf t = dayOf 36000 + 7)) ∧
    (weekdayOf 36000 = 0 →
      (36000 < dayOf 36000 * 86400 + adjustAmPm 11 none * 3600 +
          (none : Option ℕ).getD 0 * 60 →
        parse_weekday_time 36000 (("monday".data), 11, none, none) =
          .ok (some (dayOf 36000 * 86400 + adjustAmPm 11 none * 3600 +
            (none : Option ℕ).getD 0 * 60))) ∧
      (dayOf 36000 * 86400 + adjustAmPm 11 none * 3600 +
          (none : Option ℕ).getD 0 * 60 ≤ 36000 →
        parse_weekday_time 36000 (("monday".data), 11, none, none) =
          .ok (some ((dayOf 36000 + 7) * 86400 + adjustAmPm 11 none * 3600 +
            (none : Option ℕ).getD 0 * 60)))) :=
  c3_weekday_resolution defaultContext 36000 ("monday".data) 0 11 none none
    (by decide) (by decide) (by decide) (by decide) (by decide)

/-- C9: starting from any history of at most 10 entries, any sequence of
turns leaves exactly the most recent 10 entries (in order, oldest evicted
first), and in particular never more than 10. -/
theorem c9_history_fifo_cap (h0 : List HistoryEntry) (es : List HistoryEntry)
    (h : h0.length ≤ 10) :
    List.foldl appendHistory h0 es = lastN 10 (h0 ++ es) ∧
    (List.foldl appendHistory h0 es).length ≤ 10 := by
  have key : List.foldl appendHistory h0 es = lastN 10 (h0 ++ es) := by
    induction es using List.reverseRecOn with
    | nil => simp [lastN, Nat.sub_eq_zero_of_le h]
    | append_singleton xs x ih =>
      rw [List.foldl_append, List.foldl_cons, List.foldl_nil, ih,
        appendHistory_eq_lastN, lastN_lastN_append, ← List.append_assoc]
  refine ⟨key, ?_⟩
  rw [key]
  unfold lastN
  rw [List.length_drop]
  omega

/-- C9 witness: twelve identical turns from the empty history. -/
theorem c9_history_witness :
    List.foldl appendHistory ([] : List HistoryEntry)
        (List.replicate 12 { user := "hi", timestamp := 0 }) =
      lastN 10 (([] : List HistoryEntry) ++
        List.replicate 12 { user := "hi", timestamp := 0 }) ∧
    (List.foldl appendHistory ([] : List HistoryEntry)
        (List.replicate 12 { user := "hi", timestamp := 0 })).length ≤ 10 :=
  c9_history_fifo_cap [] (List.replicate 12 { user := "hi", timestamp := 0 }) (by decide)

/-- C6 counterexample: a requested time carrying one second past the
minute (day 0 at 14:00:01) makes the search generate slots at second 01;
with the collaborator free exactly at the day's last generated slot
(16:30:01), the returned candidate's interval [16:30:01, 17:00:01) runs
past the 17:00:00 business end of its day. -/
theorem c6_counterexample :
    suggest_alternative_times defaultContext 50401 30 "rigid" (fun t _ => t == 59401) =
      [59401] ∧
    bheSod defaultContext < sodOf 59401 + 30 * 60 := by
  constructor <;> decide

/-- C6 amended: the search equals taking the first five collaborator-free
slots of the visited grid in visit order, so it returns at most five
chronologically ordered candidates, each passing the availability check
and lying in the business-hour window of its day shifted by the requested
time's seconds-within-minute (for a requested time with zero seconds this
is exactly the business-hour window, with the full interval fitting
before business end); exhausting the horizon returns whatever was found,
possibly the empty list. -/
theorem c6_amended_slot_search (ctx : ConversationContext) (requested dur : ℕ)
    (flexibility : String) (avail : ℕ → ℕ → Bool)
    (hsh : ctx.business_hours_start_hour < 24)
    (hsm : ctx.business_hours_start_minute < 60)
    (heh : ctx.business_hours_end_hour < 24)
    (hem : ctx.business_hours_end_minute < 60)
    (hdur : 1 ≤ dur) :
    suggest_alternative_times ctx requested dur flexibility avail =
      ((visitedSlots ctx requested dur flexibility).filter (fun t => avail t dur)).take 5 ∧
    (suggest_alternative_times ctx requested dur flexibility avail).length ≤ 5 ∧
    (∀ t ∈ suggest_alternative_times ctx requested dur flexibility avail,
      avail t dur = true ∧
      bhsSod ctx + requested % 60 ≤ sodOf t ∧
      sodOf t + dur * 60 ≤ bheSod ctx + requested % 60) ∧
    (suggest_alternative_times ctx requested dur flexibility avail).Pairwise (· < ·) := by
  have hkey : suggest_alternative_times ctx requested dur flexibility avail =
      ((visitedSlots ctx requested dur flexibility).filter
        (fun t => avail t dur)).take 5 :=
    searchSlots_eq avail dur _ 5 (by omega)
  refine ⟨hkey, ?_, ?_, ?_⟩
  · rw [hkey, List.length_take]
    omega
  · intro t ht
    rw [hkey] at ht
    have ht2 := List.mem_of_mem_take ht
    have havail := (List.mem_filter.1 ht2).2
    have hvis := (List.mem_filter.1 ht2).1
    have hw := visitedSlots_window ctx requested dur t flexibility
      ⟨hsh, hsm, heh, hem⟩ hvis
    exact ⟨havail, hw.1, hw.2⟩
  · rw [hkey]
    exact (visitedSlots_pairwise ctx requested dur flexibility ⟨heh, hem⟩ hdur).sublist
      ((List.take_sublist _ _).trans (List.filter_sublist _))

/-- C6 amended witness: rigid search from day 0 at 14:00:00 with an
always-free collaborator. -/
theorem c6_amended_witness :
    suggest_alternative_times defaultContext 50400 30 "rigid" (fun _ _ => true) =
      ((visitedSlots defaultContext 50400 30 "rigid").filter
        (fun t => (fun _ _ => true) t 30)).take 5 ∧
    (suggest_alternative_times defaultContext 50400 30 "rigid"
      (fun _ _ => true)).length ≤ 5 ∧
    (∀ t ∈ suggest_alternative_times defaultContext 50400 30 "rigid" (fun _ _ => true),
      (fun _ _ => true) t 30 = true ∧
      bhsSod defaultContext + 50400 % 60 ≤ sodOf t ∧
      sodOf t + 30 * 60 ≤ bheSod defaultContext + 50400 % 60) ∧
    (suggest_alternative_times defaultContext 50400 30 "rigid"
      (fun _ _ => true)).Pairwise (· < ·) :=
  c6_amended_slot_search defaultContext 50400 30 "rigid" (fun _ _ => true)
    (by decide) (by decide) (by decide) (by decide) (by decide)

/-- C8: when the availability check answers false and the alternative
search comes back empty, the handler leaves the pending booking exactly
as it was and never issues a create call; and across all inputs the
pending-booking field changes only on the success path (cleared, with
the last intent set to BookMeeting) or on the conflict path that found
alternatives (set to the request). -/
theorem c8_pending_frame (ctx : ConversationContext) (req : ParsedBookingRequest)
    (avail : ℕ → ℕ → Bool) :
    (∀ t, req.start_time = some t → avail t req.duration = false →
      suggest_alternative_times ctx t req.duration req.flexibility avail = [] →
      (handle_booking_request ctx req avail).pending_booking = ctx.pending_booking ∧
      (∀ s st d, CalendarCall.createEvent s st d ∉
        (handle_booking_request ctx req avail).calls)) ∧
    ((handle_booking_request ctx req avail).pending_booking = ctx.pending_booking ∨
      ((handle_booking_request ctx req avail).pending_booking = none ∧
        (handle_booking_request ctx req avail).last_intent = some Intent.BOOK_MEETING) ∨
      ((handle_booking_request ctx req avail).pending_booking = some req ∧
        ∃ shown, (handle_booking_request ctx req avail).response =
          BookingResponse.conflictWithAlternatives shown)) := by
  rcases req with ⟨i, summ, st, et, dur, att, desc, mt, urg, flex⟩
  constructor
  · intro t hst havail halts
    simp only at hst
    subst hst
    by_cases hbh : check_business_hours ctx t
    · simp [handle_booking_request, hbh, havail, halts]
    · simp [handle_booking_request, hbh]
  · rcases st with _ | t
    · cases summ <;> exact Or.inl rfl
    · cases hbh : check_business_hours ctx t
      · left
        simp [handle_booking_request, hbh]
      · cases hav : avail t dur
        · cases halts : (suggest_alternative_times ctx t dur flex avail).isEmpty
          · right
            right
            constructor
            · simp [handle_booking_request, hbh, hav, halts]
            · exact ⟨(suggest_alternative_times ctx t dur flex avail).take 3,
                by simp [handle_booking_request, hbh, hav, halts]⟩
          · left
            simp [handle_booking_request, hbh, hav, halts]
        · right
          left
          cases summ <;> simp [handle_booking_request, hbh, hav]

/-- C8 witness: a resolved in-hours request, a collaborator that is never
free, and therefore no alternatives. -/
theorem c8_pending_frame_witness :
    (handle_booking_request defaultContext
        { intent := Intent.BOOK_MEETING, summary := some "Meeting",
          start_time := some 36000, duration := 60 }
        (fun _ _ => false)).pending_booking = defaultContext.pending_booking ∧
    (∀ s st d, CalendarCall.createEvent s st d ∉
      (handle_booking_request defaultContext
        { intent := Intent.BOOK_MEETING, summary := some "Meeting",
          start_time := some 36000, duration := 60 }
        (fun _ _ => false)).calls) :=
  (c8_pending_frame defaultContext
    { intent := Intent.BOOK_MEETING, summary := some "Meeting",
      start_time := some 36000, duration := 60 }
    (fun _ _ => false)).1 36000 rfl rfl (by decide)

/-- C10: the alternative search generates day `k` of the horizon starting
at the business-hours start wall clock (hour and minute components equal
to the configured start) of the requested time's own calendar day plus
`k`, independent of the requested wall-clock time and with no reference
to the current time; consequently, for a 14:00 request with the morning
free, the first returned candidate (09:00) is strictly earlier than the
requested time. -/
theorem c10_alternatives_from_business_start (ctx : ConversationContext)
    (requested k : ℕ)
    (hsh : ctx.business_hours_start_hour < 24)
    (hsm : ctx.business_hours_start_minute < 60) :
    (dayOf (dayStartSlot ctx requested k) = dayOf requested + k ∧
      sodOf (dayStartSlot ctx requested k) / 3600 = ctx.business_hours_start_hour ∧
      sodOf (dayStartSlot ctx requested k) % 3600 / 60 =
        ctx.business_hours_start_minute) ∧
    (suggest_alternative_times defaultContext 50400 30 "rigid" (fun _ _ => true) =
        [32400, 34200, 36000, 37800, 39600] ∧
      32400 < 50400) := by
  constructor
  · unfold dayStartSlot dayOf sodOf bhsSod
    refine ⟨?_, ?_, ?_⟩ <;> omega
  · exact ⟨by decide, by decide⟩

/-- C10 witness: the default business hours on day offset 1. -/
theorem c10_alternatives_witness :
    (dayOf (dayStartSlot defaultContext 50400 1) = dayOf 50400 + 1 ∧
      sodOf (dayStartSlot defaultContext 50400 1) / 3600 =
        defaultContext.business_hours_start_hour ∧
      sodOf (dayStartSlot defaultContext 50400 1) % 3600 / 60 =
        defaultContext.business_hours_start_minute) ∧
    (suggest_alternative_times defaultContext 50400 30 "rigid" (fun _ _ => true) =
        [32400, 34200, 36000, 37800, 39600] ∧
      32400 < 50400) :=
  c10_alternatives_from_business_start defaultContext 50400 1 (by decide) (by decide)

end SkedAI
